import Mathlib

/-!
Verification of the dynamic-color renderer
(`src/swift-gen/src/renderers/dynamic_color_renderer.rs`).

The renderer's own code is embedded faithfully below.  The data model it
consumes (`super::data`: `Color`, `DeclarationValue`, `Declaration`,
`Identifier`, `RuleSet`, `RuleSetItem`) and the `RendererConfig` collaborator
are not part of the renderer file; they are modelled from the specification's
data-model section.
-/

/-- Modelled from the spec: `Color` from `super::data` — three 8-bit integer
channels `r`, `g`, `b` plus a floating alpha `a`; an immutable value type
where two colors are equal iff all four fields are equal.  The alpha channel
is modelled as a rational number. -/
structure Color where
  r : Nat
  g : Nat
  b : Nat
  a : ℚ
deriving DecidableEq

/-- Modelled from the spec: `Identifier` from `super::data` — a short string
name plus an integer nesting depth (the depth drives indentation only). -/
structure Identifier where
  short : String
  depth : Nat
deriving DecidableEq

/-- Modelled from the spec: the `ColorSet` payload of the `Adaptive` variant
from `super::data` — a light color and a dark color. -/
structure ColorSet where
  light : Color
  dark : Color
deriving DecidableEq

/-- Modelled from the spec: `DeclarationValue` from `super::data` — either a
single solid color (`DeclarationValue::Color`) or an adaptive light/dark pair
(`DeclarationValue::ColorSet`). -/
inductive DeclarationValue where
  | color (c : Color)
  | colorSet (cs : ColorSet)
deriving DecidableEq

/-- Modelled from the spec: `Declaration` from `super::data` — an identifier
together with its declaration value. -/
structure Declaration where
  identifier : Identifier
  value : DeclarationValue
deriving DecidableEq

mutual
/-- Modelled from the spec: `RuleSet` from `super::data` — an identifier and
an ordered sequence of items. -/
inductive RuleSet where
  | mk (identifier : Identifier) (items : List RuleSetItem)

/-- Modelled from the spec: `RuleSetItem` from `super::data` — either a leaf
declaration or a nested ruleset. -/
inductive RuleSetItem where
  | declaration (decl : Declaration)
  | ruleSet (ruleset : RuleSet)
end

def RuleSet.identifier : RuleSet → Identifier
  | .mk i _ => i

def RuleSet.items : RuleSet → List RuleSetItem
  | .mk _ its => its

/-- Modelled from the spec: `RendererConfig` from `super::renderer` — exposes
an indentation policy `indent : depth → string`. -/
structure RendererConfig where
  indent : Nat → String

/-- `CompatColorSet` (dynamic_color_renderer.rs, lines 68–72): the canonical
color-pair key, a light color plus an optional dark color, with derived
structural equality. -/
structure CompatColorSet where
  light : Color
  dark : Option Color
deriving DecidableEq

/-- `impl From<&Declaration> for CompatColorSet` (lines 74–87): a solid
`Color(c)` maps to light `c` with no dark; an adaptive `ColorSet` maps to its
light and `some` of its dark. -/
def CompatColorSet.ofDeclaration (decl : Declaration) : CompatColorSet :=
  match decl.value with
  | .color c => { light := c, dark := none }
  | .colorSet cs => { light := cs.light, dark := some cs.dark }

/-- Lookup in the association list modelling the `HashMap` field of
`ColorSetMap`: the value of the first binding whose key is structurally equal. -/
def assocGet (k : CompatColorSet) : List (CompatColorSet × Nat) → Option Nat
  | [] => none
  | p :: ps => if p.1 = k then some p.2 else assocGet k ps

/-- `ColorSetMap` (lines 89–92): a hash map from canonical keys to indices
(modelled as an association list) alongside the insertion-ordered vector of
keys. -/
structure ColorSetMap where
  map : List (CompatColorSet × Nat)
  colorsets : List CompatColorSet

/-- `ColorSetMap::new` (lines 107–112): both containers start empty. -/
def ColorSetMap.new : ColorSetMap :=
  { map := [], colorsets := [] }

/-- `ColorSetMap::register_declaration` (lines 114–124): derive the canonical
key; if it is already mapped do nothing, otherwise append it to `colorsets`
and map it to the previous length. -/
def ColorSetMap.register_declaration (m : ColorSetMap) (decl : Declaration) : ColorSetMap :=
  let colorset := CompatColorSet.ofDeclaration decl
  if (assocGet colorset m.map).isSome then m
  else
    { map := m.map ++ [(colorset, m.colorsets.length)],
      colorsets := m.colorsets ++ [colorset] }

/-- `ColorSetMap::index_for_declaration` (lines 126–132): look the canonical
key up in the map; a miss panics via `.expect("Could not get index for
declaration.")`, modelled as an `Except.error` carrying the panic message. -/
def ColorSetMap.index_for_declaration (m : ColorSetMap) (decl : Declaration) :
    Except String Nat :=
  match assocGet (CompatColorSet.ofDeclaration decl) m.map with
  | some idx => .ok idx
  | none => .error "Could not get index for declaration."

/-- Left-pad a string with zeros to the given length. -/
def padZeros (s : String) (n : Nat) : String :=
  String.mk (List.replicate (n - s.length) '0') ++ s

/-- Fixed-point decimal rendering of a rational with exactly `prec` digits
after the point, as produced by Rust's `{:.prec}` format specifier: the value
`q` is rounded to the nearest multiple of `10 ^ (-prec)`, ties to even, and
printed with the integer part, a point, and `prec` fraction digits.  The
rounding is computed on `q.num * 10 ^ prec / q.den` with integer floor
division. -/
def fmtDec (q : ℚ) (prec : Nat) : String :=
  let t : ℤ := q.num * 10 ^ prec
  let d : ℤ := (q.den : ℤ)
  let fl : ℤ := Int.fdiv t d
  let r : ℤ := t - fl * d
  let k : ℤ :=
    if 2 * r < d then fl
    else if d < 2 * r then fl + 1
    else if fl % 2 = 0 then fl else fl + 1
  let n : Nat := k.natAbs
  (if k < 0 then "-" else "") ++ Nat.repr (n / 10 ^ prec) ++ "." ++
    padZeros (Nat.repr (n % 10 ^ prec)) prec

/-- `Color::ui_color_string` (lines 94–104): each of r/g/b is divided by
255.0 and formatted to 3 decimal places; alpha is formatted to 2 decimal
places unchanged. -/
def Color.ui_color_string (c : Color) : String :=
  "UIColor(red: " ++ fmtDec ((c.r : ℚ) / 255) 3 ++
    ", green: " ++ fmtDec ((c.g : ℚ) / 255) 3 ++
    ", blue: " ++ fmtDec ((c.b : ℚ) / 255) 3 ++
    ", alpha: " ++ fmtDec c.a 2 ++ ")"

/-- The static boilerplate emitted verbatim at the top of every output
(render_into, lines 13–45): file comment, import, the `ColorSet` struct and
the `dynamicColor` accessor helper. -/
def staticPreamble : String :=
  "// This file is automatically generated. Do not edit, your changes will be erased.\n\nimport UIKit\n\nfileprivate struct ColorSet \x7b\n  var light: UIColor\n  var dark: UIColor?\n\n  init(_ light: UIColor, _ dark: UIColor?) \x7b\n    self.light = light\n    self.dark = dark\n  \x7d\n\x7d\n\nfileprivate func dynamicColor(_ colorSet: ColorSet) -> UIColor \x7b\n  if #available(iOS 13.0, *) \x7b\n    return UIColor \x7b traits -> UIColor in\n      switch traits.userInterfaceStyle \x7b\n        case .dark:\n          return colorSet.dark ?? colorSet.light\n        case .light, .unspecified:\n          fallthrough\n        @unknown default:\n          return colorSet.light\n      \x7d\n    \x7d\n  \x7d else \x7b\n    return colorSet.light\n  \x7d\n\x7d\n"

mutual
/-- `DynamicColorRenderer::populate_colorset_map` (lines 136–143): walk the
ruleset's items in stored order, registering each declaration and recursing
into nested rulesets. -/
def populate_colorset_map : RuleSet → ColorSetMap → ColorSetMap
  | .mk _ items, m => populate_items items m

/-- The item loop of `populate_colorset_map` (lines 137–142). -/
def populate_items : List RuleSetItem → ColorSetMap → ColorSetMap
  | [], m => m
  | .declaration decl :: rest, m => populate_items rest (m.register_declaration decl)
  | .ruleSet rs :: rest, m => populate_items rest (populate_colorset_map rs m)
end

/-- `DynamicColorRenderer::render_declaration_into` (lines 168–181): append
one constant-binding line referencing the declaration's table index; a lookup
miss propagates the panic. -/
def render_declaration_into (declaration : Declaration) (d : String) (map : ColorSetMap)
    (config : RendererConfig) : Except String String :=
  match map.index_for_declaration declaration with
  | .ok idx =>
    .ok (d ++ config.indent declaration.identifier.depth ++ "static let " ++
      declaration.identifier.short ++ " = dynamicColor(ColorSets[" ++ Nat.repr idx ++ "])\n")
  | .error e => .error e

mutual
/-- `DynamicColorRenderer::render_ruleset_into` (lines 145–166): append the
namespace opener, render each item in order, then append the closer at the
opener's indentation. -/
def render_ruleset_into : RuleSet → String → ColorSetMap → RendererConfig →
    Except String String
  | .mk ident items, d, map, config =>
    match render_items items
        (d ++ config.indent ident.depth ++ "enum " ++ ident.short ++ " \x7b\n") map config with
    | .ok d2 => .ok (d2 ++ config.indent ident.depth ++ "\x7d\n")
    | .error e => .error e

/-- The item loop of `render_ruleset_into` (lines 158–163). -/
def render_items : List RuleSetItem → String → ColorSetMap → RendererConfig →
    Except String String
  | [], d, _, _ => .ok d
  | .declaration decl :: rest, d, map, config =>
    match render_declaration_into decl d map config with
    | .ok d2 => render_items rest d2 map config
    | .error e => .error e
  | .ruleSet rs :: rest, d, map, config =>
    match render_ruleset_into rs d map config with
    | .ok d2 => render_items rest d2 map config
    | .error e => .error e
end

/-- One line of the table literal (render_into, lines 49–58): the light color
expression and the dark expression when present, else `nil`. -/
def tableEntryLine (config : RendererConfig) (colorset : CompatColorSet) : String :=
  config.indent 1 ++ "ColorSet(" ++ colorset.light.ui_color_string ++ ", " ++
    (match colorset.dark with
     | none => "nil"
     | some color => color.ui_color_string) ++ "),\n"

/-- `DynamicColorRenderer::render_into` (lines 9–65): populate the map, append
the static preamble, the table literal over `colorsets` in order, then the
`extension UIColor` wrapper around the recursive ruleset rendering. -/
def render_into (ruleset : RuleSet) (d : String) (config : RendererConfig) :
    Except String String :=
  let colorset_map := populate_colorset_map ruleset ColorSetMap.new
  let d1 := d ++ staticPreamble
  let d2 := d1 ++ "\n"
  let d3 := d2 ++ "fileprivate let ColorSets: [ColorSet] = [\n"
  let d4 := colorset_map.colorsets.foldl (fun acc cs => acc ++ tableEntryLine config cs) d3
  let d5 := d4 ++ "]\n"
  let d6 := d5 ++ "\n"
  let d7 := d6 ++ "extension UIColor \x7b\n"
  match render_ruleset_into ruleset d7 colorset_map config with
  | .ok d8 => .ok (d8 ++ "\x7d\n")
  | .error e => .error e

mutual
/-- The declarations of a ruleset in depth-first, preorder, left-to-right
traversal order — the visit order shared by both passes. -/
def RuleSet.decls : RuleSet → List Declaration
  | .mk _ items => declsOfItems items

/-- The declarations of an item list in traversal order. -/
def declsOfItems : List RuleSetItem → List Declaration
  | [] => []
  | .declaration decl :: rest => decl :: declsOfItems rest
  | .ruleSet rs :: rest => rs.decls ++ declsOfItems rest
end

/-- One deduplication step: keep the accumulator unchanged on a repeated key,
append a first-encountered key at the end. -/
def dedupStep (acc : List CompatColorSet) (k : CompatColorSet) : List CompatColorSet :=
  if k ∈ acc then acc else acc ++ [k]

/-- The distinct canonical color pairs of a sequence, in order of first
encounter. -/
def firstEncounterDedup (ks : List CompatColorSet) : List CompatColorSet :=
  ks.foldl dedupStep []

/-- Position of the first structurally equal element of a list, if any. -/
def firstIdx (k : CompatColorSet) : List CompatColorSet → Option Nat
  | [] => none
  | x :: xs => if x = k then some 0 else (firstIdx k xs).map (· + 1)

/-- The representation invariant tying the two containers of `ColorSetMap`
together: the hash map holds exactly the keys of `colorsets`, each mapped to
its (first) position. -/
def ColorSetMap.WF (m : ColorSetMap) : Prop :=
  ∀ k, assocGet k m.map = firstIdx k m.colorsets

/-- Example indentation policy for concrete instantiations: two spaces per
nesting level. -/
def twoSpaceConfig : RendererConfig :=
  ⟨fun n => String.mk (List.replicate (2 * n) ' ')⟩

/-- Example color: opaque red. -/
def exRed : Color := ⟨255, 0, 0, mkRat 1 1⟩

/-- Example color: opaque dark red. -/
def exDarkRed : Color := ⟨128, 0, 0, mkRat 1 1⟩

/-- Example tree, the spec's concrete scenario: `Brand` holding `primary`
and `primaryAgain` (equal solid colors) and nested `Dark` holding the
adaptive `accent`. -/
def exTree : RuleSet :=
  .mk ⟨"Brand", 1⟩
    [ .declaration ⟨⟨"primary", 2⟩, .color exRed⟩,
      .declaration ⟨⟨"primaryAgain", 2⟩, .color exRed⟩,
      .ruleSet (.mk ⟨"Dark", 2⟩
        [ .declaration ⟨⟨"accent", 3⟩, .colorSet ⟨exRed, exDarkRed⟩⟩ ]) ]

/-- Concatenation of a rendering function over a list, in list order — the
text produced by the table-literal loop of `render_into`. -/
def concatMap (f : CompatColorSet → String) : List CompatColorSet → String
  | [] => ""
  | k :: rest => f k ++ concatMap f rest

/-- Dividing a channel value by 255 in `ℚ` produces the unreduced fraction
`mkRat n 255`, a form on which `fmtDec` evaluates by kernel reduction. -/
theorem div255_eq_mkRat (n : Nat) : ((n : ℚ) / 255) = mkRat n 255 := by
  rw [Rat.mkRat_eq_div]
  norm_num

example : fmtDec (mkRat 255 255) 3 = "1.000" := by decide
example : fmtDec (mkRat 128 255) 3 = "0.502" := by decide
example : fmtDec (mkRat 0 255) 3 = "0.000" := by decide
example : fmtDec (mkRat 3 2) 2 = "1.50" := by decide
example : fmtDec (((128 : ℕ) : ℚ) / 255) 3 = "0.502" := by
  rw [div255_eq_mkRat]
  decide

theorem assocGet_append_of_some {k : CompatColorSet} {l1 : List (CompatColorSet × Nat)}
    {v : Nat} (l2 : List (CompatColorSet × Nat)) (h : assocGet k l1 = some v) :
    assocGet k (l1 ++ l2) = some v := by
  induction l1 with
  | nil => simp [assocGet] at h
  | cons p ps ih =>
    by_cases hp : p.1 = k
    · simpa [assocGet, hp] using h
    · simp only [assocGet, hp, if_false, List.cons_append] at h ⊢
      exact ih h

theorem assocGet_append_of_none {k : CompatColorSet} {l1 : List (CompatColorSet × Nat)}
    (l2 : List (CompatColorSet × Nat)) (h : assocGet k l1 = none) :
    assocGet k (l1 ++ l2) = assocGet k l2 := by
  induction l1 with
  | nil => simp
  | cons p ps ih =>
    by_cases hp : p.1 = k
    · simp [assocGet, hp] at h
    · simp only [assocGet, hp, if_false, List.cons_append] at h ⊢
      exact ih h

theorem firstIdx_append_of_some {k : CompatColorSet} {l1 : List CompatColorSet} {i : Nat}
    (l2 : List CompatColorSet) (h : firstIdx k l1 = some i) :
    firstIdx k (l1 ++ l2) = some i := by
  induction l1 generalizing i with
  | nil => simp [firstIdx] at h
  | cons x xs ih =>
    by_cases hx : x = k
    · simpa [firstIdx, hx] using h
    · simp only [firstIdx, hx, if_false, List.cons_append, Option.map_eq_some'] at h ⊢
      obtain ⟨j, hj, rfl⟩ := h
      exact ⟨j, ih hj, rfl⟩

theorem firstIdx_append_of_none {k : CompatColorSet} {l1 : List CompatColorSet}
    (l2 : List CompatColorSet) (h : firstIdx k l1 = none) :
    firstIdx k (l1 ++ l2) = (firstIdx k l2).map (· + l1.length) := by
  induction l1 with
  | nil => simp
  | cons x xs ih =>
    by_cases hx : x = k
    · simp [firstIdx, hx] at h
    · simp only [firstIdx, hx, if_false, Option.map_eq_none'] at h
      simp only [firstIdx, hx, if_false, List.cons_append, List.length_cons, List.append_eq]
      rw [ih h]
      cases firstIdx k l2 with
      | none => rfl
      | some a =>
        simp only [Option.map_some', Option.some.injEq]
        omega

theorem firstIdx_none_iff {k : CompatColorSet} {l : List CompatColorSet} :
    firstIdx k l = none ↔ k ∉ l := by
  induction l with
  | nil => simp [firstIdx]
  | cons x xs ih =>
    by_cases hx : x = k
    · simp [firstIdx, hx]
    · simp [firstIdx, hx, ih, Ne.symm hx]

theorem firstIdx_getElem {k : CompatColorSet} {l : List CompatColorSet} {i : Nat}
    (h : firstIdx k l = some i) : l[i]? = some k := by
  induction l generalizing i with
  | nil => simp [firstIdx] at h
  | cons x xs ih =>
    by_cases hx : x = k
    · simp only [firstIdx, hx, if_true, Option.some.injEq] at h
      subst h
      simp [hx]
    · simp only [firstIdx, hx, if_false, Option.map_eq_some'] at h
      obtain ⟨j, hj, rfl⟩ := h
      simpa using ih hj

theorem wf_new : ColorSetMap.WF ColorSetMap.new := fun _ => rfl

theorem register_of_found (m : ColorSetMap) (decl : Declaration)
    (hs : (assocGet (CompatColorSet.ofDeclaration decl) m.map).isSome) :
    m.register_declaration decl = m := by
  unfold ColorSetMap.register_declaration
  simp [hs]

theorem register_of_new (m : ColorSetMap) (decl : Declaration)
    (hs : ¬ (assocGet (CompatColorSet.ofDeclaration decl) m.map).isSome = true) :
    m.register_declaration decl =
      { map := m.map ++ [(CompatColorSet.ofDeclaration decl, m.colorsets.length)],
        colorsets := m.colorsets ++ [CompatColorSet.ofDeclaration decl] } := by
  unfold ColorSetMap.register_declaration
  simp [hs]

theorem wf_register (m : ColorSetMap) (decl : Declaration) (h : m.WF) :
    (m.register_declaration decl).WF := by
  by_cases hs : (assocGet (CompatColorSet.ofDeclaration decl) m.map).isSome
  · rw [register_of_found m decl hs]
    exact h
  · rw [register_of_new m decl hs]
    intro k
    simp only
    cases hk : assocGet k m.map with
    | some v =>
      rw [assocGet_append_of_some _ hk, firstIdx_append_of_some _ (by rw [← h k, hk])]
    | none =>
      rw [assocGet_append_of_none _ hk, firstIdx_append_of_none _ (by rw [← h k, hk])]
      by_cases hkk : CompatColorSet.ofDeclaration decl = k <;>
        simp [assocGet, firstIdx, hkk]

theorem register_colorsets (m : ColorSetMap) (decl : Declaration) (h : m.WF) :
    (m.register_declaration decl).colorsets =
      dedupStep m.colorsets (CompatColorSet.ofDeclaration decl) := by
  by_cases hmem : CompatColorSet.ofDeclaration decl ∈ m.colorsets
  · have hne : firstIdx (CompatColorSet.ofDeclaration decl) m.colorsets ≠ none :=
      fun hn => (firstIdx_none_iff.mp hn) hmem
    have hs : (assocGet (CompatColorSet.ofDeclaration decl) m.map).isSome := by
      rw [h (CompatColorSet.ofDeclaration decl), Option.isSome_iff_ne_none]
      exact hne
    rw [register_of_found m decl hs]
    simp [dedupStep, hmem]
  · have hs : ¬ (assocGet (CompatColorSet.ofDeclaration decl) m.map).isSome = true := by
      rw [h (CompatColorSet.ofDeclaration decl), firstIdx_none_iff.mpr hmem]
      simp
    rw [register_of_new m decl hs]
    simp [dedupStep, hmem]

mutual
theorem populate_colorset_map_wf : ∀ (r : RuleSet) (m : ColorSetMap), m.WF →
    (populate_colorset_map r m).WF
  | .mk _ its, m, h => by
    rw [populate_colorset_map]
    exact populate_items_wf its m h

theorem populate_items_wf : ∀ (its : List RuleSetItem) (m : ColorSetMap), m.WF →
    (populate_items its m).WF
  | [], m, h => by
    rw [populate_items]
    exact h
  | .declaration decl :: rest, m, h => by
    rw [populate_items]
    exact populate_items_wf rest _ (wf_register m decl h)
  | .ruleSet rs :: rest, m, h => by
    rw [populate_items]
    exact populate_items_wf rest _ (populate_colorset_map_wf rs m h)
end

mutual
theorem populate_colorset_map_colorsets : ∀ (r : RuleSet) (m : ColorSetMap), m.WF →
    (populate_colorset_map r m).colorsets =
      (r.decls.map CompatColorSet.ofDeclaration).foldl dedupStep m.colorsets
  | .mk _ its, m, h => by
    rw [populate_colorset_map, RuleSet.decls]
    exact populate_items_colorsets its m h

theorem populate_items_colorsets : ∀ (its : List RuleSetItem) (m : ColorSetMap), m.WF →
    (populate_items its m).colorsets =
      ((declsOfItems its).map CompatColorSet.ofDeclaration).foldl dedupStep m.colorsets
  | [], m, h => by
    rw [populate_items, declsOfItems]
    simp
  | .declaration decl :: rest, m, h => by
    rw [populate_items, declsOfItems]
    simp only [List.map_cons, List.foldl_cons]
    rw [populate_items_colorsets rest _ (wf_register m decl h), register_colorsets m decl h]
  | .ruleSet rs :: rest, m, h => by
    rw [populate_items, declsOfItems]
    simp only [List.map_append, List.foldl_append]
    rw [populate_items_colorsets rest _ (populate_colorset_map_wf rs m h),
      populate_colorset_map_colorsets rs m h]
end

theorem mem_foldl_dedupStep_of_mem_acc {k : CompatColorSet} {acc : List CompatColorSet}
    (ks : List CompatColorSet) (h : k ∈ acc) : k ∈ ks.foldl dedupStep acc := by
  induction ks generalizing acc with
  | nil => simpa using h
  | cons k' rest ih =>
    simp only [List.foldl_cons]
    refine ih ?_
    unfold dedupStep
    split
    · exact h
    · exact List.mem_append_left _ h

theorem mem_foldl_dedupStep_of_mem {k : CompatColorSet} {ks : List CompatColorSet}
    (acc : List CompatColorSet) (h : k ∈ ks) : k ∈ ks.foldl dedupStep acc := by
  induction ks generalizing acc with
  | nil => simp at h
  | cons k' rest ih =>
    simp only [List.foldl_cons]
    rcases List.mem_cons.mp h with rfl | hrest
    · refine mem_foldl_dedupStep_of_mem_acc rest ?_
      unfold dedupStep
      split
      · assumption
      · exact List.mem_append_right _ (List.mem_singleton_self k)
    · exact ih _ hrest

theorem index_ok_of_mem_colorsets {m : ColorSetMap} (h : m.WF) {decl : Declaration}
    (hd : CompatColorSet.ofDeclaration decl ∈ m.colorsets) :
    ∃ i, m.index_for_declaration decl = .ok i ∧
      m.colorsets[i]? = some (CompatColorSet.ofDeclaration decl) := by
  cases hfi : firstIdx (CompatColorSet.ofDeclaration decl) m.colorsets with
  | none => exact absurd hd (firstIdx_none_iff.mp hfi)
  | some i =>
    refine ⟨i, ?_, firstIdx_getElem hfi⟩
    unfold ColorSetMap.index_for_declaration
    rw [h (CompatColorSet.ofDeclaration decl), hfi]

theorem mem_populated_colorsets {r : RuleSet} {decl : Declaration} (hd : decl ∈ r.decls) :
    CompatColorSet.ofDeclaration decl ∈ (populate_colorset_map r ColorSetMap.new).colorsets := by
  rw [populate_colorset_map_colorsets r ColorSetMap.new wf_new]
  exact mem_foldl_dedupStep_of_mem _ (List.mem_map_of_mem _ hd)

theorem populated_index_ok {r : RuleSet} {decl : Declaration} (hd : decl ∈ r.decls) :
    ∃ i, (populate_colorset_map r ColorSetMap.new).index_for_declaration decl = .ok i ∧
      (populate_colorset_map r ColorSetMap.new).colorsets[i]? =
        some (CompatColorSet.ofDeclaration decl) :=
  index_ok_of_mem_colorsets (populate_colorset_map_wf r ColorSetMap.new wf_new)
    (mem_populated_colorsets hd)

theorem render_declaration_frame (decl : Declaration) (map : ColorSetMap)
    (config : RendererConfig) (d1 d2 : String) :
    render_declaration_into decl (d1 ++ d2) map config =
      (render_declaration_into decl d2 map config).map (d1 ++ ·) := by
  unfold render_declaration_into
  cases map.index_for_declaration decl with
  | ok idx => simp [Except.map, String.append_assoc]
  | error e => simp [Except.map]

mutual
theorem render_ruleset_frame : ∀ (r : RuleSet) (map : ColorSetMap) (config : RendererConfig)
    (d1 d2 : String),
    render_ruleset_into r (d1 ++ d2) map config =
      (render_ruleset_into r d2 map config).map (d1 ++ ·)
  | .mk ident its, map, config, d1, d2 => by
    rw [render_ruleset_into, render_ruleset_into]
    simp only [String.append_assoc]
    rw [render_items_frame its map config d1
      (d2 ++ (config.indent ident.depth ++ ("enum " ++ (ident.short ++ " \x7b\n"))))]
    cases render_items its
        (d2 ++ (config.indent ident.depth ++ ("enum " ++ (ident.short ++ " \x7b\n"))))
        map config with
    | ok y => simp [Except.map, String.append_assoc]
    | error e => simp [Except.map]

theorem render_items_frame : ∀ (its : List RuleSetItem) (map : ColorSetMap)
    (config : RendererConfig) (d1 d2 : String),
    render_items its (d1 ++ d2) map config =
      (render_items its d2 map config).map (d1 ++ ·)
  | [], map, config, d1, d2 => by
    rw [render_items, render_items]
    simp [Except.map]
  | .declaration decl :: rest, map, config, d1, d2 => by
    rw [render_items, render_items, render_declaration_frame decl map config d1 d2]
    cases render_declaration_into decl d2 map config with
    | ok y =>
      simp only [Except.map]
      exact render_items_frame rest map config d1 y
    | error e => simp [Except.map]
  | .ruleSet rs :: rest, map, config, d1, d2 => by
    rw [render_items, render_items, render_ruleset_frame rs map config d1 d2]
    cases render_ruleset_into rs d2 map config with
    | ok y =>
      simp only [Except.map]
      exact render_items_frame rest map config d1 y
    | error e => simp [Except.map]
end

theorem render_declaration_total (decl : Declaration) (map : ColorSetMap)
    (config : RendererConfig) (d : String)
    (h : (assocGet (CompatColorSet.ofDeclaration decl) map.map).isSome) :
    ∃ out, render_declaration_into decl d map config = .ok out := by
  unfold render_declaration_into ColorSetMap.index_for_declaration
  cases hg : assocGet (CompatColorSet.ofDeclaration decl) map.map with
  | some i => exact ⟨_, rfl⟩
  | none => rw [hg] at h; simp at h

mutual
theorem render_ruleset_total : ∀ (r : RuleSet) (map : ColorSetMap) (config : RendererConfig)
    (d : String),
    (∀ decl ∈ r.decls, (assocGet (CompatColorSet.ofDeclaration decl) map.map).isSome) →
    ∃ out, render_ruleset_into r d map config = .ok out
  | .mk ident its, map, config, d, h => by
    rw [render_ruleset_into]
    obtain ⟨out, hout⟩ := render_items_total its map config
      (d ++ config.indent ident.depth ++ "enum " ++ ident.short ++ " \x7b\n")
      (by rw [RuleSet.decls] at h; exact h)
    rw [hout]
    exact ⟨_, rfl⟩

theorem render_items_total : ∀ (its : List RuleSetItem) (map : ColorSetMap)
    (config : RendererConfig) (d : String),
    (∀ decl ∈ declsOfItems its, (assocGet (CompatColorSet.ofDeclaration decl) map.map).isSome) →
    ∃ out, render_items its d map config = .ok out
  | [], map, config, d, _ => ⟨d, by rw [render_items]⟩
  | .declaration decl :: rest, map, config, d, h => by
    rw [render_items]
    obtain ⟨y, hy⟩ := render_declaration_total decl map config d
      (h decl (by rw [declsOfItems]; exact List.mem_cons_self _ _))
    rw [hy]
    exact render_items_total rest map config y
      (fun dd hdd => h dd (by rw [declsOfItems]; exact List.mem_cons_of_mem _ hdd))
  | .ruleSet rs :: rest, map, config, d, h => by
    rw [render_items]
    obtain ⟨y, hy⟩ := render_ruleset_total rs map config d
      (fun dd hdd => h dd (by rw [declsOfItems]; exact List.mem_append_left _ hdd))
    rw [hy]
    exact render_items_total rest map config y
      (fun dd hdd => h dd (by rw [declsOfItems]; exact List.mem_append_right _ hdd))
end

theorem render_ruleset_frame0 (r : RuleSet) (map : ColorSetMap) (config : RendererConfig)
    (d : String) :
    render_ruleset_into r d map config =
      (render_ruleset_into r "" map config).map (d ++ ·) := by
  have h := render_ruleset_frame r map config d ""
  rwa [String.append_empty] at h

theorem foldl_append_eq_concatMap (f : CompatColorSet → String) :
    ∀ (ks : List CompatColorSet) (d : String),
    ks.foldl (fun acc cs => acc ++ f cs) d = d ++ concatMap f ks
  | [], d => by rw [concatMap]; simp
  | k :: rest, d => by
    rw [concatMap, List.foldl_cons, foldl_append_eq_concatMap f rest (d ++ f k),
      String.append_assoc]

theorem nodup_foldl_dedupStep :
    ∀ (ks acc : List CompatColorSet), acc.Nodup → (ks.foldl dedupStep acc).Nodup
  | [], acc, h => by simpa using h
  | k :: rest, acc, h => by
    simp only [List.foldl_cons]
    refine nodup_foldl_dedupStep rest _ ?_
    unfold dedupStep
    split
    · exact h
    · rename_i hk
      rw [List.nodup_append]
      refine ⟨h, List.nodup_singleton k, ?_⟩
      intro a ha hak
      rw [List.mem_singleton] at hak
      exact hk (hak ▸ ha)

theorem assocGet_isSome_of_mem {m : ColorSetMap} (hwf : m.WF) {k : CompatColorSet}
    (hk : k ∈ m.colorsets) : (assocGet k m.map).isSome := by
  rw [hwf k, Option.isSome_iff_ne_none]
  exact fun hn => (firstIdx_none_iff.mp hn) hk

theorem render_into_eq (r : RuleSet) (config : RendererConfig) (s : String) :
    ∃ body,
      render_ruleset_into r "" (populate_colorset_map r ColorSetMap.new) config = .ok body ∧
      render_into r s config = .ok (s ++
        (staticPreamble ++ ("\n" ++ ("fileprivate let ColorSets: [ColorSet] = [\n" ++
          (concatMap (tableEntryLine config)
              (populate_colorset_map r ColorSetMap.new).colorsets ++
            ("]\n" ++ ("\n" ++ ("extension UIColor \x7b\n" ++
              (body ++ "\x7d\n"))))))))) := by
  have hwf := populate_colorset_map_wf r ColorSetMap.new wf_new
  obtain ⟨body, hbody⟩ := render_ruleset_total r (populate_colorset_map r ColorSetMap.new)
    config ""
    (fun decl hd => assocGet_isSome_of_mem hwf (mem_populated_colorsets hd))
  refine ⟨body, hbody, ?_⟩
  simp only [render_into, foldl_append_eq_concatMap (tableEntryLine config)]
  rw [render_ruleset_frame0, hbody]
  simp only [Except.map, String.append_assoc]

theorem index_for_congr (m : ColorSetMap) {d1 d2 : Declaration}
    (h : CompatColorSet.ofDeclaration d1 = CompatColorSet.ofDeclaration d2) :
    m.index_for_declaration d1 = m.index_for_declaration d2 := by
  unfold ColorSetMap.index_for_declaration
  rw [h]

theorem index_for_inj {m : ColorSetMap} (hwf : m.WF) {d1 d2 : Declaration} {i : Nat}
    (h1 : m.index_for_declaration d1 = .ok i) (h2 : m.index_for_declaration d2 = .ok i) :
    CompatColorSet.ofDeclaration d1 = CompatColorSet.ofDeclaration d2 := by
  unfold ColorSetMap.index_for_declaration at h1 h2
  cases hg1 : assocGet (CompatColorSet.ofDeclaration d1) m.map with
  | none => rw [hg1] at h1; exact absurd h1 (by simp)
  | some i1 =>
    cases hg2 : assocGet (CompatColorSet.ofDeclaration d2) m.map with
    | none => rw [hg2] at h2; exact absurd h2 (by simp)
    | some i2 =>
      rw [hg1] at h1
      rw [hg2] at h2
      simp only [Except.ok.injEq] at h1 h2
      have f1 : firstIdx (CompatColorSet.ofDeclaration d1) m.colorsets = some i1 := by
        rw [← hwf _]
        exact hg1
      have f2 : firstIdx (CompatColorSet.ofDeclaration d2) m.colorsets = some i2 := by
        rw [← hwf _]
        exact hg2
      have e1 := firstIdx_getElem f1
      have e2 := firstIdx_getElem f2
      rw [h1] at e1
      rw [h2] at e2
      rw [e1] at e2
      exact Option.some.inj e2

theorem render_items_frame0 (its : List RuleSetItem) (m : ColorSetMap)
    (config : RendererConfig) (d : String) :
    render_items its d m config = (render_items its "" m config).map (d ++ ·) := by
  have h := render_items_frame its m config d ""
  rwa [String.append_empty] at h

theorem padZeros_repr_length (n p : Nat) (hp : 0 < p) :
    (padZeros (Nat.repr (n % 10 ^ p)) p).length = p := by
  have hmod : n % 10 ^ p < 10 ^ p := Nat.mod_lt _ (pow_pos (by norm_num) p)
  have hle := Nat.repr_length (n % 10 ^ p) p hp hmod
  unfold padZeros
  rw [String.length_append]
  have hmk : (String.mk (List.replicate (p - (Nat.repr (n % 10 ^ p)).length) '0')).length
      = p - (Nat.repr (n % 10 ^ p)).length := by
    show (List.replicate (p - (Nat.repr (n % 10 ^ p)).length) '0').length
      = p - (Nat.repr (n % 10 ^ p)).length
    exact List.length_replicate _ _
  rw [hmk]
  omega

theorem fmtDec_decimals (q : ℚ) (p : Nat) (hp : 0 < p) :
    ∃ s t : String, fmtDec q p = s ++ "." ++ t ∧ t.length = p := by
  simp only [fmtDec]
  exact ⟨_, _, rfl, padZeros_repr_length _ p hp⟩

/-- C1: after the population pass, two declarations of the tree reference the
same table index through `index_for_declaration` exactly when their canonical
color pairs are structurally equal — equal pairs collapse to one index,
unequal pairs get different indices, independently of tree position. -/
theorem C1_dedup_correctness (r : RuleSet) (d1 d2 : Declaration)
    (h1 : d1 ∈ r.decls) (h2 : d2 ∈ r.decls) :
    CompatColorSet.ofDeclaration d1 = CompatColorSet.ofDeclaration d2 ↔
      (populate_colorset_map r ColorSetMap.new).index_for_declaration d1 =
        (populate_colorset_map r ColorSetMap.new).index_for_declaration d2 := by
  constructor
  · exact fun h => index_for_congr _ h
  · intro heq
    obtain ⟨i1, hi1, -⟩ := populated_index_ok h1
    obtain ⟨i2, hi2, -⟩ := populated_index_ok h2
    rw [hi1, hi2] at heq
    simp only [Except.ok.injEq] at heq
    subst heq
    exact index_for_inj (populate_colorset_map_wf r ColorSetMap.new wf_new) hi1 hi2

set_option maxRecDepth 100000 in
/-- Witness for C1 at the spec's concrete scenario: `primary` and
`primaryAgain` carry the same solid color and reference the same index. -/
theorem C1_dedup_correctness_witness :
    CompatColorSet.ofDeclaration ⟨⟨"primary", 2⟩, .color exRed⟩ =
        CompatColorSet.ofDeclaration ⟨⟨"primaryAgain", 2⟩, .color exRed⟩ ↔
      (populate_colorset_map exTree ColorSetMap.new).index_for_declaration
          ⟨⟨"primary", 2⟩, .color exRed⟩ =
        (populate_colorset_map exTree ColorSetMap.new).index_for_declaration
          ⟨⟨"primaryAgain", 2⟩, .color exRed⟩ :=
  C1_dedup_correctness exTree _ _ (by decide) (by decide)

/-- C2: the table after the population pass lists exactly the distinct
canonical color pairs in order of first encounter under the depth-first,
preorder, left-to-right traversal (`RuleSet.decls`), with no duplicates. -/
theorem C2_order_preservation (r : RuleSet) :
    (populate_colorset_map r ColorSetMap.new).colorsets =
        firstEncounterDedup (r.decls.map CompatColorSet.ofDeclaration) ∧
      (populate_colorset_map r ColorSetMap.new).colorsets.Nodup := by
  have h := populate_colorset_map_colorsets r ColorSetMap.new wf_new
  refine ⟨h, ?_⟩
  rw [h]
  exact nodup_foldl_dedupStep _ [] List.nodup_nil

/-- Counterexample for C3 as stated: a lookup miss produces the fixed message
"Could not get index for declaration.", which does not contain the offending
declaration's identifier ("myColor"), and is byte-identical for a declaration
with a different identifier — so the diagnostic does not identify the
offending declaration's identifier. -/
theorem C3_counterexample :
    ColorSetMap.new.index_for_declaration ⟨⟨"myColor", 0⟩, .color exRed⟩ =
        .error "Could not get index for declaration." ∧
      ¬ ("myColor".toList <:+: "Could not get index for declaration.".toList) ∧
      ColorSetMap.new.index_for_declaration ⟨⟨"myColor", 0⟩, .color exRed⟩ =
        ColorSetMap.new.index_for_declaration ⟨⟨"otherName", 0⟩, .color exRed⟩ :=
  ⟨rfl, by decide, rfl⟩

/-- C3 (amended): a lookup for a canonical pair with no structurally equal
registered entry fails fatally with the fixed invariant-violation message
"Could not get index for declaration." (which does not name the offending
identifier); and every declaration registered by a completed population pass
over the identical tree is looked up successfully, yielding the index of its
canonical pair in the table. -/
theorem C3_lookup_behavior (r : RuleSet) (d : Declaration) (m : ColorSetMap) :
    (assocGet (CompatColorSet.ofDeclaration d) m.map = none →
        m.index_for_declaration d = .error "Could not get index for declaration.") ∧
      (d ∈ r.decls →
        ∃ i, (populate_colorset_map r ColorSetMap.new).index_for_declaration d = .ok i ∧
          (populate_colorset_map r ColorSetMap.new).colorsets[i]? =
            some (CompatColorSet.ofDeclaration d)) := by
  constructor
  · intro hm
    unfold ColorSetMap.index_for_declaration
    rw [hm]
  · exact populated_index_ok

set_option maxRecDepth 100000 in
/-- Witness for C3 (amended): the `accent` declaration misses on an empty
map and succeeds after populating the example tree. -/
theorem C3_lookup_behavior_witness :
    ColorSetMap.new.index_for_declaration ⟨⟨"accent", 3⟩, .colorSet ⟨exRed, exDarkRed⟩⟩ =
        .error "Could not get index for declaration." ∧
      ∃ i, (populate_colorset_map exTree ColorSetMap.new).index_for_declaration
            ⟨⟨"accent", 3⟩, .colorSet ⟨exRed, exDarkRed⟩⟩ = .ok i ∧
          (populate_colorset_map exTree ColorSetMap.new).colorsets[i]? =
            some (CompatColorSet.ofDeclaration ⟨⟨"accent", 3⟩, .colorSet ⟨exRed, exDarkRed⟩⟩) :=
  ⟨(C3_lookup_behavior exTree ⟨⟨"accent", 3⟩, .colorSet ⟨exRed, exDarkRed⟩⟩ ColorSetMap.new).1
      rfl,
    (C3_lookup_behavior exTree ⟨⟨"accent", 3⟩, .colorSet ⟨exRed, exDarkRed⟩⟩ ColorSetMap.new).2
      (by decide)⟩

/-- C4: the canonical color pair of a declaration is `{light := c, dark :=
none}` for the solid variant and `{light := l, dark := some d}` for the
adaptive variant, regardless of the identifier (hence of tree position), and
equality of pairs is field-wise structural equality. -/
theorem C4_canonical_pair :
    (∀ (ident : Identifier) (c : Color),
        CompatColorSet.ofDeclaration ⟨ident, .color c⟩ = ⟨c, none⟩) ∧
      (∀ (ident : Identifier) (cs : ColorSet),
        CompatColorSet.ofDeclaration ⟨ident, .colorSet cs⟩ = ⟨cs.light, some cs.dark⟩) ∧
      (∀ p q : CompatColorSet, p = q ↔ p.light = q.light ∧ p.dark = q.dark) := by
  refine ⟨fun _ _ => rfl, fun _ _ => rfl, fun p q => ?_⟩
  cases p
  cases q
  simp [CompatColorSet.mk.injEq]

/-- C5: the rendered output is, in order, the fixed static preamble, the
table literal over all entries in insertion order (each entry via
`tableEntryLine`: light expression, then dark expression or "nil"), and the
`extension UIColor` wrapper enclosing the nested namespace rendering. -/
theorem C5_output_structure (r : RuleSet) (config : RendererConfig) :
    (∀ cs : CompatColorSet, tableEntryLine config cs =
        config.indent 1 ++ "ColorSet(" ++ cs.light.ui_color_string ++ ", " ++
          (match cs.dark with
           | none => "nil"
           | some color => color.ui_color_string) ++ "),\n") ∧
      ∃ body,
        render_ruleset_into r "" (populate_colorset_map r ColorSetMap.new) config = .ok body ∧
        render_into r "" config = .ok
          (staticPreamble ++ "\n" ++ "fileprivate let ColorSets: [ColorSet] = [\n" ++
            concatMap (tableEntryLine config)
              (populate_colorset_map r ColorSetMap.new).colorsets ++
            "]\n" ++ "\n" ++ "extension UIColor \x7b\n" ++ body ++ "\x7d\n") := by
  refine ⟨fun _ => rfl, ?_⟩
  obtain ⟨body, h1, h2⟩ := render_into_eq r config ""
  refine ⟨body, h1, ?_⟩
  rw [h2]
  simp only [String.empty_append, String.append_assoc]

/-- C6: rendering is deterministic — the embedded render function applied to
equal tree/config inputs yields equal output strings. -/
theorem C6_determinism (r1 r2 : RuleSet) (c1 c2 : RendererConfig)
    (hr : r1 = r2) (hc : c1 = c2) :
    render_into r1 "" c1 = render_into r2 "" c2 := by
  subst hr
  subst hc
  rfl

/-- Witness for C6 at the example tree and config. -/
theorem C6_determinism_witness :
    render_into exTree "" twoSpaceConfig = render_into exTree "" twoSpaceConfig :=
  C6_determinism exTree exTree twoSpaceConfig twoSpaceConfig rfl rfl

set_option maxRecDepth 100000 in
/-- C7: the color formatter divides each of r/g/b by 255 and renders it with
exactly 3 decimal places, passes alpha through with exactly 2 decimal places,
and performs no range validation — an out-of-range alpha (here 5/2) is
rendered verbatim as "2.50". -/
theorem C7_color_formatting :
    (∀ c : Color, c.ui_color_string =
        "UIColor(red: " ++ fmtDec ((c.r : ℚ) / 255) 3 ++ ", green: " ++
          fmtDec ((c.g : ℚ) / 255) 3 ++ ", blue: " ++ fmtDec ((c.b : ℚ) / 255) 3 ++
          ", alpha: " ++ fmtDec c.a 2 ++ ")") ∧
      (∀ (q : ℚ) (p : Nat), 0 < p →
        ∃ s t : String, fmtDec q p = s ++ "." ++ t ∧ t.length = p) ∧
      Color.ui_color_string ⟨255, 128, 0, mkRat 5 2⟩ =
        "UIColor(red: 1.000, green: 0.502, blue: 0.000, alpha: 2.50)" := by
  refine ⟨fun c => rfl, fmtDec_decimals, ?_⟩
  rw [Color.ui_color_string, div255_eq_mkRat, div255_eq_mkRat, div255_eq_mkRat]
  decide

/-- Witness for C7: the fraction part of the 3-place rendering of 128/255 has
exactly 3 digits. -/
theorem C7_color_formatting_witness :
    0 < 3 ∧ ∃ s t : String, fmtDec (mkRat 128 255) 3 = s ++ "." ++ t ∧ t.length = 3 :=
  ⟨by decide, C7_color_formatting.2.1 (mkRat 128 255) 3 (by decide)⟩

set_option maxRecDepth 100000 in
/-- C8: an empty ruleset renders without error: the table literal is empty
and the namespace block consists of matching opening and closing lines at the
same indentation with nothing between them. -/
theorem C8_empty_ruleset :
    render_into (RuleSet.mk ⟨"Empty", 1⟩ []) "" twoSpaceConfig =
      .ok (staticPreamble ++
        "\nfileprivate let ColorSets: [ColorSet] = [\n]\n\nextension UIColor \x7b\n  enum Empty \x7b\n  \x7d\n\x7d\n") :=
  rfl

/-- C9: `render_into` appends to the supplied buffer — for any initial
contents `s` the result is `s` followed by the text generated from the empty
buffer, a suffix that does not depend on `s`. -/
theorem C9_append_frame (r : RuleSet) (config : RendererConfig) (s : String) :
    ∃ out, render_into r "" config = .ok out ∧ render_into r s config = .ok (s ++ out) := by
  obtain ⟨body, h1, h2⟩ := render_into_eq r config s
  obtain ⟨body0, h10, h20⟩ := render_into_eq r config ""
  rw [h1] at h10
  obtain rfl := Except.ok.inj h10
  rw [String.empty_append] at h20
  exact ⟨_, h20, h2⟩

/-- C10: identifiers are emitted verbatim with no validation or escaping —
the namespace opener embeds the ruleset identifier's short string as-is at
`config.indent` of its stored depth, and a successful declaration rendering
appends exactly the constant-binding line embedding the declaration's short
string as-is at `config.indent` of its stored depth. -/
theorem C10_verbatim_identifiers :
    (∀ (ident : Identifier) (items : List RuleSetItem) (d : String) (m : ColorSetMap)
        (config : RendererConfig) (out : String),
      render_ruleset_into (.mk ident items) d m config = .ok out →
      ∃ rest, out =
        d ++ config.indent ident.depth ++ "enum " ++ ident.short ++ " \x7b\n" ++ rest) ∧
      (∀ (decl : Declaration) (d : String) (m : ColorSetMap) (config : RendererConfig)
          (idx : Nat),
        m.index_for_declaration decl = .ok idx →
        render_declaration_into decl d m config = .ok
          (d ++ config.indent decl.identifier.depth ++ "static let " ++
            decl.identifier.short ++ " = dynamicColor(ColorSets[" ++ Nat.repr idx ++ "])\n")) := by
  constructor
  · intro ident items d m config out hout
    rw [render_ruleset_into, render_items_frame0] at hout
    cases hz : render_items items "" m config with
    | error e =>
      rw [hz] at hout
      exact absurd hout (by simp [Except.map])
    | ok z =>
      rw [hz] at hout
      simp only [Except.map] at hout
      refine ⟨z ++ config.indent ident.depth ++ "\x7d\n", ?_⟩
      rw [← Except.ok.inj hout]
      simp [String.append_assoc]
  · intro decl d m config idx hidx
    unfold render_declaration_into
    rw [hidx]

set_option maxRecDepth 100000 in
/-- Witness for C10: a ruleset whose identifier contains spaces and a brace
is still emitted verbatim, and the `primary` declaration's line embeds its
name and index verbatim. -/
theorem C10_verbatim_identifiers_witness :
    (∃ rest, "  enum weird name \x7b \x7b\n  \x7d\n" =
        "" ++ twoSpaceConfig.indent 1 ++ "enum " ++ "weird name \x7b" ++ " \x7b\n" ++ rest) ∧
      render_declaration_into ⟨⟨"primary", 2⟩, .color exRed⟩ ""
          (populate_colorset_map exTree ColorSetMap.new) twoSpaceConfig = .ok
        ("" ++ twoSpaceConfig.indent 2 ++ "static let " ++ "primary" ++
          " = dynamicColor(ColorSets[" ++ Nat.repr 0 ++ "])\n") :=
  ⟨C10_verbatim_identifiers.1 ⟨"weird name \x7b", 1⟩ [] "" ColorSetMap.new twoSpaceConfig
      "  enum weird name \x7b \x7b\n  \x7d\n" rfl,
    C10_verbatim_identifiers.2 ⟨⟨"primary", 2⟩, .color exRed⟩ ""
      (populate_colorset_map exTree ColorSetMap.new) twoSpaceConfig 0 rfl⟩
